import Mathlib

/-!
Verification of the QuCumber tutorial/build slice.

The repository slice consists of tutorial notebooks calling the qucumber
library's public API, plus the Sphinx documentation Makefile and tox
configuration.  We embed the code that is present in the slice (the
`PIQuIL` observable's `apply` method, the `to_pm1` helper, the Makefile's
targets) directly, and model the library entry points that the slice only
calls (`save`, `autoload`, `data.load_data`, `unitaries.create_dict`) from
the specification's description of them.
-/

/-! ## Persisted model state (save / autoload) -/

/-- RBM parameters of a wavefunction model: weight matrix, visible bias
vector and hidden bias vector (real entries modelled as rationals). -/
structure RBMParams where
  weights : List (List ℚ)
  visible_bias : List ℚ
  hidden_bias : List ℚ
deriving DecidableEq

/-- A value stored in a saved-model artifact: a scalar, a vector tensor or
a matrix tensor. -/
inductive SavedValue where
  | scalar : ℚ → SavedValue
  | tensor1 : List ℚ → SavedValue
  | tensor2 : List (List ℚ) → SavedValue
deriving DecidableEq

/-- A saved-model artifact: a single serialized dictionary from string keys
to saved values, in insertion order. -/
def Artifact : Type := List (String × SavedValue)

instance : DecidableEq Artifact := by
  unfold Artifact
  infer_instance

/-- The artifact keys reserved for the network parameters. -/
def reservedKeys : List String := ["weights", "visible_bias", "hidden_bias"]

/-- Look a key up in an artifact (first binding wins, as in a dict). -/
def lookupKey (a : Artifact) (k : String) : Option SavedValue :=
  (a.find? (fun e => decide (e.1 = k))).map (fun e => e.2)

namespace NNState

/-- Modelled from the spec: `nn_state.save(location, metadata=...)` — the
implementation is not in this excerpt; per the spec it serializes a single
artifact holding the named tensors under the keys `weights`,
`visible_bias` and `hidden_bias`, followed by any user-supplied metadata
key/value pairs. -/
def save (p : RBMParams) (metadata : List (String × SavedValue)) : Artifact :=
  [("weights", SavedValue.tensor2 p.weights),
   ("visible_bias", SavedValue.tensor1 p.visible_bias),
   ("hidden_bias", SavedValue.tensor1 p.hidden_bias)] ++ metadata

/-- A model object reconstructed by `autoload`: the parameter tensors, the
hyperparameters (numbers of visible and hidden units) and the metadata
found in the artifact. -/
structure Loaded where
  params : RBMParams
  num_visible : ℕ
  num_hidden : ℕ
  metadata : List (String × SavedValue)
deriving DecidableEq

/-- Modelled from the spec: `PositiveWaveFunction.autoload(location)` — the
implementation is not in this excerpt; per the spec it reconstructs the
model object and its hyperparameters from the artifact alone, reading the
parameter tensors from their reserved keys and keeping the remaining
entries as metadata. -/
def autoload (a : Artifact) : Option Loaded :=
  match lookupKey a "weights", lookupKey a "visible_bias", lookupKey a "hidden_bias" with
  | some (SavedValue.tensor2 w), some (SavedValue.tensor1 v), some (SavedValue.tensor1 h) =>
      some { params := ⟨w, v, h⟩
             num_visible := v.length
             num_hidden := h.length
             metadata := a.filter (fun e => decide (e.1 ∉ reservedKeys)) }
  | _, _, _ => none

end NNState

/-- Helper: `autoload` of `save p md` always succeeds and recovers the
parameters; the recovered metadata is `md` with any entries clashing with
the reserved keys filtered out. -/
theorem autoload_save_eq (p : RBMParams) (md : List (String × SavedValue)) :
    NNState.autoload (NNState.save p md) =
      some ⟨p, p.visible_bias.length, p.hidden_bias.length,
        md.filter (fun e => decide (e.1 ∉ reservedKeys))⟩ := by
  have hw : lookupKey (NNState.save p md) "weights" =
      some (SavedValue.tensor2 p.weights) := rfl
  have hv : lookupKey (NNState.save p md) "visible_bias" =
      some (SavedValue.tensor1 p.visible_bias) := rfl
  have hh : lookupKey (NNState.save p md) "hidden_bias" =
      some (SavedValue.tensor1 p.hidden_bias) := rfl
  rw [NNState.autoload, hw, hv, hh]
  simp [NNState.save, reservedKeys, List.filter]

/-- Helper: looking up a non-reserved key in the saved artifact looks it up
in the metadata. -/
theorem lookupKey_save_of_not_reserved (p : RBMParams)
    (md : List (String × SavedValue)) (k : String) (hk : k ∉ reservedKeys) :
    lookupKey (NNState.save p md) k = lookupKey md k := by
  simp only [reservedKeys, List.mem_cons, List.not_mem_nil, or_false, not_or] at hk
  obtain ⟨h1, h2, h3⟩ := hk
  simp [NNState.save, lookupKey, List.find?, Ne.symm h1, Ne.symm h2, Ne.symm h3]

/-- C1: saving a model's parameters together with a metadata dictionary and
reloading the artifact through the autoload entry point yields a model
whose parameter tensors equal the saved ones and whose metadata equals the
saved metadata (round trip is the identity on parameters and metadata),
provided the metadata does not shadow a reserved tensor key. -/
theorem save_autoload_roundtrip (p : RBMParams) (md : List (String × SavedValue))
    (hmd : ∀ e ∈ md, e.1 ∉ reservedKeys) :
    ∃ m, NNState.autoload (NNState.save p md) = some m ∧
      m.params = p ∧ m.metadata = md := by
  refine ⟨⟨p, p.visible_bias.length, p.hidden_bias.length, md⟩, ?_, rfl, rfl⟩
  rw [autoload_save_eq]
  have : md.filter (fun e => decide (e.1 ∉ reservedKeys)) = md :=
    List.filter_eq_self.mpr (fun e he => by simpa using hmd e he)
  rw [this]

/-- C1 witness: the round trip at a concrete model and metadata dict. -/
theorem save_autoload_roundtrip_witness :
    (∀ e ∈ [("magnetization", SavedValue.scalar 561)], e.1 ∉ reservedKeys) ∧
      ∃ m, NNState.autoload
          (NNState.save ⟨[[1, 2], [3, 4]], [5, 6], [7, 8]⟩
            [("magnetization", SavedValue.scalar 561)]) = some m ∧
        m.params = ⟨[[1, 2], [3, 4]], [5, 6], [7, 8]⟩ ∧
        m.metadata = [("magnetization", SavedValue.scalar 561)] :=
  ⟨by decide,
    save_autoload_roundtrip ⟨[[1, 2], [3, 4]], [5, 6], [7, 8]⟩
      [("magnetization", SavedValue.scalar 561)] (by decide)⟩

/-- C2: the artifact produced by `save` holds exactly the three named
tensors under the keys `weights`, `visible_bias` and `hidden_bias`
followed by the user-supplied metadata pairs (any other key resolves to
its metadata binding), and `autoload` reconstructs the model and its
hyperparameters (visible/hidden unit counts) from the artifact alone. -/
theorem save_artifact_contents (p : RBMParams) (md : List (String × SavedValue)) :
    ((NNState.save p md).map Prod.fst = reservedKeys ++ md.map Prod.fst) ∧
      lookupKey (NNState.save p md) "weights" = some (SavedValue.tensor2 p.weights) ∧
      lookupKey (NNState.save p md) "visible_bias" = some (SavedValue.tensor1 p.visible_bias) ∧
      lookupKey (NNState.save p md) "hidden_bias" = some (SavedValue.tensor1 p.hidden_bias) ∧
      (∀ k, k ∉ reservedKeys → lookupKey (NNState.save p md) k = lookupKey md k) ∧
      ∃ m, NNState.autoload (NNState.save p md) = some m ∧
        m.params = p ∧ m.num_visible = p.visible_bias.length ∧
        m.num_hidden = p.hidden_bias.length := by
  refine ⟨by simp [NNState.save, reservedKeys], rfl, rfl, rfl,
    fun k hk => lookupKey_save_of_not_reserved p md k hk, ?_⟩
  exact ⟨_, autoload_save_eq p md, rfl, rfl, rfl⟩

/-- C2 witness: the artifact-contents theorem at a concrete model, with the
non-reserved-key conjunct applied at the key "samples". -/
theorem save_artifact_contents_witness :
    ("samples" ∉ reservedKeys) ∧
      lookupKey
          (NNState.save ⟨[[1, 2], [3, 4]], [5, 6], [7, 8]⟩
            [("samples", SavedValue.tensor2 [[0, 1]])])
          "samples" =
        lookupKey [("samples", SavedValue.tensor2 [[0, 1]])] "samples" :=
  ⟨by decide,
    (save_artifact_contents ⟨[[1, 2], [3, 4]], [5, 6], [7, 8]⟩
      [("samples", SavedValue.tensor2 [[0, 1]])]).2.2.2.2.1 "samples" (by decide)⟩

/-! ## Training-data files: row alignment and basis coverage -/

namespace Data

/-- Modelled from the spec: `data.load_data` — the implementation is not in
this excerpt; per the spec the training-data file is plain text with one
measurement row per line, each line a sequence of 0/1 digits (one per
site), the bases file has one line per training row giving the basis label
applied at each site (same site count), and loading fails on malformed
files (mismatched line counts, wrong site counts, non-binary digits). -/
def load_data (nv : ℕ) (dataLines : List (List Char))
    (basesLines : List (List String)) :
    Option (List (List Bool) × List (List String)) :=
  if dataLines.length = basesLines.length
      ∧ (∀ l ∈ dataLines, l.length = nv ∧ ∀ c ∈ l, c = '0' ∨ c = '1')
      ∧ (∀ l ∈ basesLines, l.length = nv)
  then some (dataLines.map (fun l => l.map (fun c => c == '1')), basesLines)
  else none

/-- Modelled from the spec: training (`fit` with `input_bases`) requires
every basis label appearing in the bases file to be a key of the unitary
dictionary; an absent label makes training fail rather than proceed. -/
def fitWithBases (keys : List String)
    (d : List (List Bool) × List (List String)) :
    Option (List (List Bool) × List (List String)) :=
  if ∀ l ∈ d.2, ∀ b ∈ l, b ∈ keys then some d else none

/-- Loading the data/bases files and then starting training. -/
def loadAndTrain (nv : ℕ) (keys : List String) (dataLines : List (List Char))
    (basesLines : List (List String)) :
    Option (List (List Bool) × List (List String)) :=
  (load_data nv dataLines basesLines).bind (fitWithBases keys)

end Data

/-- C3: the load-then-train pipeline proceeds exactly when the data and
bases files have an equal number of lines, every line's site count equals
the declared visible-unit count (data lines being 0/1 digits), and every
basis label is a key of the unitary dictionary; on a line-count mismatch
or an unknown basis label it fails rather than proceeding. -/
theorem load_data_row_alignment (nv : ℕ) (keys : List String)
    (dataLines : List (List Char)) (basesLines : List (List String)) :
    (Data.loadAndTrain nv keys dataLines basesLines).isSome ↔
      (dataLines.length = basesLines.length
        ∧ (∀ l ∈ dataLines, l.length = nv ∧ ∀ c ∈ l, c = '0' ∨ c = '1')
        ∧ (∀ l ∈ basesLines, l.length = nv)
        ∧ (∀ l ∈ basesLines, ∀ b ∈ l, b ∈ keys)) := by
  unfold Data.loadAndTrain Data.load_data Data.fitWithBases
  split
  · rename_i h
    simp only [Option.some_bind]
    split
    · rename_i h2
      simpa using ⟨h.1, h.2.1, h.2.2, h2⟩
    · rename_i h2
      simp only [Option.isSome_none, Bool.false_eq_true, false_iff]
      exact fun hc => h2 hc.2.2.2
  · rename_i h
    simp only [Option.none_bind, Option.isSome_none, Bool.false_eq_true, false_iff]
    exact fun hc => h ⟨hc.1, hc.2.1, hc.2.2.1⟩

/-- C3 witness: the pipeline accepts a concrete well-formed pair of files. -/
theorem load_data_row_alignment_witness :
    (Data.loadAndTrain 2 ["Z", "X", "Y"] [['0', '1'], ['1', '1']]
        [["Z", "Z"], ["X", "Y"]]).isSome :=
  (load_data_row_alignment 2 ["Z", "X", "Y"] [['0', '1'], ['1', '1']]
    [["Z", "Z"], ["X", "Y"]]).mpr (by decide)

namespace Data

/-- Modelled from the spec: a full training run additionally consults the
unique-bases file (e.g. `qubits_bases.txt`), which lists every distinct
basis string occurring in the bases file, one per line, as required for
the KL-divergence computation; a run only proceeds when each basis string
of the bases file occurs exactly once in the unique-bases file. -/
def trainingRun (nv : ℕ) (keys : List String) (dataLines : List (List Char))
    (basesLines : List (List String)) (uniqueBases : List (List String)) :
    Option (List (List Bool) × List (List String)) :=
  (loadAndTrain nv keys dataLines basesLines).bind
    (fun d => if ∀ l ∈ basesLines, uniqueBases.count l = 1 then some d else none)

end Data

/-- C4: in every training run that proceeds, every basis label appearing in
the training-bases file is a key of the unitary dictionary passed to the
model, and every distinct basis string occurring in the bases file appears
(exactly once per line) in the unique-bases file. -/
theorem training_run_basis_coverage (nv : ℕ) (keys : List String)
    (dataLines : List (List Char)) (basesLines : List (List String))
    (uniqueBases : List (List String))
    (h : (Data.trainingRun nv keys dataLines basesLines uniqueBases).isSome) :
    (∀ l ∈ basesLines, ∀ b ∈ l, b ∈ keys) ∧
      (∀ l ∈ basesLines, l ∈ uniqueBases ∧ uniqueBases.count l = 1) := by
  unfold Data.trainingRun Data.loadAndTrain Data.load_data Data.fitWithBases at h
  split at h
  · rw [Option.some_bind] at h
    split at h
    · rename_i hkeys
      rw [Option.some_bind] at h
      split at h
      · rename_i huniq
        refine ⟨hkeys, fun l hl => ⟨?_, huniq l hl⟩⟩
        have : 0 < uniqueBases.count l := by
          rw [huniq l hl]
          exact Nat.one_pos
        exact List.count_pos_iff.mp this
      · simp at h
    · simp at h
  · simp at h

/-- C4 witness: coverage extracted from a concrete accepted training run
(bases Z⊗Z and X⊗Y over the keys Z, X, Y). -/
theorem training_run_basis_coverage_witness :
    (Data.trainingRun 2 ["Z", "X", "Y"] [['0', '1'], ['1', '1']]
          [["Z", "Z"], ["X", "Y"]] [["Z", "Z"], ["X", "Y"]]).isSome ∧
      ((∀ l ∈ [["Z", "Z"], ["X", "Y"]], ∀ b ∈ l, b ∈ ["Z", "X", "Y"]) ∧
        (∀ l ∈ ([["Z", "Z"], ["X", "Y"]] : List (List String)),
          l ∈ [["Z", "Z"], ["X", "Y"]] ∧
            ([["Z", "Z"], ["X", "Y"]] : List (List String)).count l = 1)) :=
  ⟨by decide,
    training_run_basis_coverage 2 ["Z", "X", "Y"] [['0', '1'], ['1', '1']]
      [["Z", "Z"], ["X", "Y"]] [["Z", "Z"], ["X", "Y"]] (by decide)⟩

/-! ## Unitary dictionary (`unitaries.create_dict`) -/

/-- An element of the field ℚ(√2), written `a + b·√2` with `a b : ℚ`; this
lets the `1/√2` normalisation of the H and K gates be represented
exactly. -/
structure RootTwo where
  a : ℚ
  b : ℚ
deriving DecidableEq

namespace RootTwo

def add (x y : RootTwo) : RootTwo := ⟨x.a + y.a, x.b + y.b⟩

def mul (x y : RootTwo) : RootTwo :=
  ⟨x.a * y.a + 2 * (x.b * y.b), x.a * y.b + x.b * y.a⟩

def neg (x : RootTwo) : RootTwo := ⟨-x.a, -x.b⟩

/-- `0`. -/
def zero : RootTwo := ⟨0, 0⟩

/-- `1`. -/
def one : RootTwo := ⟨1, 0⟩

/-- `1/√2 = (1/2)·√2`. -/
def invSqrtTwo : RootTwo := ⟨0, 1 / 2⟩

end RootTwo

/-- A real 2x2 matrix with entries in ℚ(√2). -/
structure Mat2 where
  m00 : RootTwo
  m01 : RootTwo
  m10 : RootTwo
  m11 : RootTwo
deriving DecidableEq

namespace Mat2

def add (x y : Mat2) : Mat2 :=
  ⟨x.m00.add y.m00, x.m01.add y.m01, x.m10.add y.m10, x.m11.add y.m11⟩

def sub (x y : Mat2) : Mat2 :=
  ⟨x.m00.add y.m00.neg, x.m01.add y.m01.neg, x.m10.add y.m10.neg, x.m11.add y.m11.neg⟩

def mul (x y : Mat2) : Mat2 :=
  ⟨(x.m00.mul y.m00).add (x.m01.mul y.m10),
   (x.m00.mul y.m01).add (x.m01.mul y.m11),
   (x.m10.mul y.m00).add (x.m11.mul y.m10),
   (x.m10.mul y.m01).add (x.m11.mul y.m11)⟩

def transpose (x : Mat2) : Mat2 := ⟨x.m00, x.m10, x.m01, x.m11⟩

def neg (x : Mat2) : Mat2 := ⟨x.m00.neg, x.m01.neg, x.m10.neg, x.m11.neg⟩

def scale (c : RootTwo) (x : Mat2) : Mat2 :=
  ⟨c.mul x.m00, c.mul x.m01, c.mul x.m10, c.mul x.m11⟩

/-- The zero matrix. -/
def zero : Mat2 := ⟨RootTwo.zero, RootTwo.zero, RootTwo.zero, RootTwo.zero⟩

/-- The identity matrix. -/
def id2 : Mat2 := ⟨RootTwo.one, RootTwo.zero, RootTwo.zero, RootTwo.one⟩

end Mat2

/-- A complex 2x2 matrix stored, as in qucumber's `cplx` convention, as a
real/imaginary pair of real 2x2 arrays. -/
structure CMat2 where
  re : Mat2
  im : Mat2
deriving DecidableEq

namespace CMat2

/-- Complex matrix product on real/imaginary pairs:
`(A + iB)(C + iD) = (AC − BD) + i(AD + BC)`. -/
def mul (x y : CMat2) : CMat2 :=
  ⟨(x.re.mul y.re).sub (x.im.mul y.im), (x.re.mul y.im).add (x.im.mul y.re)⟩

/-- Conjugate transpose: `(A + iB)† = Aᵀ − iBᵀ`. -/
def dagger (x : CMat2) : CMat2 := ⟨x.re.transpose, x.im.transpose.neg⟩

/-- The complex identity matrix. -/
def cId : CMat2 := ⟨Mat2.id2, Mat2.zero⟩

/-- A 2x2 complex matrix is unitary when `U†U = UU† = I`. -/
def IsUnitary (x : CMat2) : Prop := mul (dagger x) x = cId ∧ mul x (dagger x) = cId

instance (x : CMat2) : Decidable (IsUnitary x) := by
  unfold IsUnitary
  infer_instance

end CMat2

/-- Look a basis label up in a unitary dictionary (first binding wins). -/
def lookupGate (d : List (String × CMat2)) (k : String) : Option CMat2 :=
  (d.find? (fun e => decide (e.1 = k))).map (fun e => e.2)

namespace Unitaries

/-- The 2x2 identity, the unitary bound to the key "Z". -/
def gateI : CMat2 := ⟨Mat2.id2, Mat2.zero⟩

/-- The Hadamard gate `H = (1/√2)[[1,1],[1,−1]]`, bound to the key "X". -/
def gateH : CMat2 :=
  ⟨Mat2.scale RootTwo.invSqrtTwo
      ⟨RootTwo.one, RootTwo.one, RootTwo.one, RootTwo.one.neg⟩,
    Mat2.zero⟩

/-- The gate `K = (1/√2)[[1,−i],[1,i]]`, bound to the key "Y": real part
`(1/√2)[[1,0],[1,0]]`, imaginary part `(1/√2)[[0,−1],[0,1]]`. -/
def gateK : CMat2 :=
  ⟨Mat2.scale RootTwo.invSqrtTwo
      ⟨RootTwo.one, RootTwo.zero, RootTwo.one, RootTwo.zero⟩,
    Mat2.scale RootTwo.invSqrtTwo
      ⟨RootTwo.zero, RootTwo.one.neg, RootTwo.zero, RootTwo.one⟩⟩

/-- Modelled from the spec: `unitaries.create_dict` — the implementation is
not in this excerpt; per the spec/tutorial it returns the dictionary that
by default contains the identity and the H and K gates under the keys
"Z", "X" and "Y" respectively, and user-supplied keyword arguments append
further label-to-unitary entries. -/
def create_dict (kwargs : List (String × CMat2)) : List (String × CMat2) :=
  [("Z", gateI), ("X", gateH), ("Y", gateK)] ++ kwargs

end Unitaries

/-- Helper: the identity gate is unitary. -/
theorem gateI_unitary : CMat2.IsUnitary Unitaries.gateI := by
  constructor <;>
    · simp only [Unitaries.gateI, CMat2.mul, CMat2.dagger, CMat2.cId, Mat2.mul,
        Mat2.add, Mat2.sub, Mat2.transpose, Mat2.neg, Mat2.id2, Mat2.zero,
        RootTwo.mul, RootTwo.add, RootTwo.neg, RootTwo.zero, RootTwo.one,
        CMat2.mk.injEq, Mat2.mk.injEq, RootTwo.mk.injEq]
      norm_num

/-- Helper: the Hadamard gate is unitary. -/
theorem gateH_unitary : CMat2.IsUnitary Unitaries.gateH := by
  constructor <;>
    · simp only [Unitaries.gateH, CMat2.mul, CMat2.dagger, CMat2.cId, Mat2.mul,
        Mat2.add, Mat2.sub, Mat2.transpose, Mat2.neg, Mat2.id2, Mat2.zero,
        Mat2.scale, RootTwo.mul, RootTwo.add, RootTwo.neg, RootTwo.zero,
        RootTwo.one, RootTwo.invSqrtTwo, CMat2.mk.injEq, Mat2.mk.injEq,
        RootTwo.mk.injEq]
      norm_num

/-- Helper: the K gate is unitary. -/
theorem gateK_unitary : CMat2.IsUnitary Unitaries.gateK := by
  constructor <;>
    · simp only [Unitaries.gateK, CMat2.mul, CMat2.dagger, CMat2.cId, Mat2.mul,
        Mat2.add, Mat2.sub, Mat2.transpose, Mat2.neg, Mat2.id2, Mat2.zero,
        Mat2.scale, RootTwo.mul, RootTwo.add, RootTwo.neg, RootTwo.zero,
        RootTwo.one, RootTwo.invSqrtTwo, CMat2.mk.injEq, Mat2.mk.injEq,
        RootTwo.mk.injEq]
      norm_num

/-- C5: `create_dict` called with no arguments yields a dictionary with
exactly the keys "Z", "X", "Y" bound to the identity, the H gate and the
K gate respectively; every default entry is a 2x2 complex unitary matrix
(stored as a real/imaginary pair of arrays); and keyword arguments append
further label-to-unitary entries after the defaults. -/
theorem create_dict_default_entries :
    ((Unitaries.create_dict []).map Prod.fst = ["Z", "X", "Y"]) ∧
      lookupGate (Unitaries.create_dict []) "Z" = some Unitaries.gateI ∧
      lookupGate (Unitaries.create_dict []) "X" = some Unitaries.gateH ∧
      lookupGate (Unitaries.create_dict []) "Y" = some Unitaries.gateK ∧
      (∀ e ∈ Unitaries.create_dict [], CMat2.IsUnitary e.2) ∧
      (∀ kwargs, Unitaries.create_dict kwargs = Unitaries.create_dict [] ++ kwargs) := by
  refine ⟨rfl, rfl, rfl, rfl, fun e he => ?_, fun _ => rfl⟩
  simp only [Unitaries.create_dict, List.append_nil, List.mem_cons,
    List.not_mem_nil, or_false] at he
  rcases he with h | h | h <;> subst h
  · exact gateI_unitary
  · exact gateH_unitary
  · exact gateK_unitary

/-- C5 witness: unitarity of the default "Y" entry (the K gate), extracted
from the dictionary theorem, together with a concrete keyword-argument
extension. -/
theorem create_dict_default_entries_witness :
    (("Y", Unitaries.gateK) ∈ Unitaries.create_dict [] ∧
        CMat2.IsUnitary Unitaries.gateK) ∧
      Unitaries.create_dict [("A", Unitaries.gateI)] =
        Unitaries.create_dict [] ++ [("A", Unitaries.gateI)] :=
  ⟨⟨by simp [Unitaries.create_dict],
      create_dict_default_entries.2.2.2.2.1 ("Y", Unitaries.gateK)
        (by simp [Unitaries.create_dict])⟩,
    create_dict_default_entries.2.2.2.2.2 [("A", Unitaries.gateI)]⟩

/-! ## The PIQuIL observable (`PIQuIL.apply` from the sampling tutorial) -/

section PIQuILSection

variable {R : Type} [CommRing R]

/-- `to_pm1` from the sampling tutorial: `samples.mul(2.).sub(1.)` — maps
each entry `s` of the batch to `s * 2 - 1`, returning a new tensor and
leaving `samples` unchanged. -/
def to_pm1 (samples : List (List R)) : List (List R) :=
  samples.map (fun row => row.map (fun s => s * 2 - 1))

/-- `samples.shape[-1]`: the site count of a batch (the row length). -/
def shapeLast (samples : List (List R)) : ℕ := (samples.headD []).length

/-- The tensor `self.P * samples[:, i] * samples[:, i + 2]` at one sample
row of the batch. -/
def colTerm (P : R) (i : ℕ) (row : List R) : R :=
  P * row.getD i 0 * row.getD (i + 2) 0

/-- Broadcasting `+` between the loop accumulator (either the initial
Python integer `0` or a previously built per-sample tensor) and a
per-sample tensor. -/
def addBroadcast : R ⊕ List R → List R → List R
  | Sum.inl c, v => v.map (fun x => c + x)
  | Sum.inr u, v => List.zipWith (· + ·) u v

/-- One iteration of the `for i in range(samples.shape[-1])` loop of
`PIQuIL.apply`: an index with `(i + 3) > samples.shape[-1]` is skipped
(`continue`); otherwise `self.P * samples[:, i] * samples[:, i + 2]` is
added onto the accumulator. -/
def piquilStep (P : R) (samples : List (List R)) (acc : R ⊕ List R) (i : ℕ) :
    R ⊕ List R :=
  if shapeLast samples < i + 3 then acc
  else Sum.inr (addBroadcast acc (samples.map (colTerm P i)))

namespace PIQuIL

/-- `PIQuIL(P).apply(nn_state, samples)` from the sampling tutorial: it
calls `to_pm1(samples)` and discards the result, sets `interaction_ = 0`,
runs the interaction loop over the raw samples and returns the
accumulator. -/
def apply (P : R) (samples : List (List R)) : R ⊕ List R :=
  let _pm1 := to_pm1 samples
  (List.range (shapeLast samples)).foldl (piquilStep P samples) (Sum.inl 0)

/-- The same interaction loop without the discarded `to_pm1` call. -/
def applyRaw (P : R) (samples : List (List R)) : R ⊕ List R :=
  (List.range (shapeLast samples)).foldl (piquilStep P samples) (Sum.inl 0)

end PIQuIL

/-- Helper: zipWith-add of two maps over the same batch fuses into one
map. -/
theorem zipWith_add_map_map (l : List (List R)) (g f : List R → R) :
    List.zipWith (· + ·) (l.map g) (l.map f) = l.map (fun r => g r + f r) := by
  induction l with
  | nil => rfl
  | cons x xs ih => simp [ih]

/-- Helper: loop iterations whose index fails the bound check leave the
accumulator unchanged. -/
theorem foldl_piquilStep_skip (P : R) (samples : List (List R))
    (is : List ℕ) (acc : R ⊕ List R)
    (h : ∀ i ∈ is, shapeLast samples < i + 3) :
    is.foldl (piquilStep P samples) acc = acc := by
  induction is generalizing acc with
  | nil => rfl
  | cons i is ih =>
    rw [List.foldl_cons, piquilStep, if_pos (h i (List.mem_cons_self i is))]
    exact ih acc (fun j hj => h j (List.mem_cons_of_mem i hj))

/-- Helper: over in-bound indices, the loop adds the per-sample interaction
terms onto a tensor accumulator. -/
theorem foldl_piquilStep_go (P : R) (samples : List (List R))
    (is : List ℕ) (g : List R → R)
    (h : ∀ i ∈ is, ¬ shapeLast samples < i + 3) :
    is.foldl (piquilStep P samples) (Sum.inr (samples.map g)) =
      Sum.inr (samples.map (fun row =>
        g row + ((is.map (fun i => colTerm P i row)).sum))) := by
  induction is generalizing g with
  | nil => simp
  | cons i is ih =>
    rw [List.foldl_cons, piquilStep, if_neg (h i (List.mem_cons_self i is))]
    have hz : addBroadcast (Sum.inr (samples.map g)) (samples.map (colTerm P i)) =
        samples.map (fun row => g row + colTerm P i row) := by
      rw [addBroadcast]
      exact zipWith_add_map_map samples g (colTerm P i)
    rw [hz, ih (fun row => g row + colTerm P i row)
      (fun j hj => h j (List.mem_cons_of_mem i hj))]
    refine congrArg Sum.inr (congrArg (fun f => List.map f samples) (funext fun row => ?_))
    simp [add_assoc]

end PIQuILSection

/-- C6: on a batch of 0/1 samples over `n` sites, `PIQuIL(P).apply` equals
the per-sample tensor of `P` times the sum over `i ≤ n − 3` of
`samples[:, i] * samples[:, i + 2]`, computed on the raw 0/1 entries —
the `to_pm1` conversion called inside `apply` is discarded (`apply` equals
its `to_pm1`-free variant), and when `n < 3` the loop body never runs and
`apply` returns the Python scalar `0` rather than a per-sample tensor. -/
theorem piquil_apply_spec {R : Type} [CommRing R] (P : R)
    (samples : List (List R))
    (hlen : ∀ row ∈ samples, row.length = shapeLast samples)
    (hbits : ∀ row ∈ samples, ∀ x ∈ row, x = 0 ∨ x = 1) :
    (PIQuIL.apply P samples =
      if shapeLast samples < 3 then Sum.inl 0
      else Sum.inr (samples.map (fun row =>
        P * ((List.range (shapeLast samples - 2)).map
          (fun i => row.getD i 0 * row.getD (i + 2) 0)).sum))) ∧
      PIQuIL.apply P samples = PIQuIL.applyRaw P samples := by
  refine ⟨?_, rfl⟩
  by_cases h3 : shapeLast samples < 3
  · rw [if_pos h3]
    exact foldl_piquilStep_skip P samples _ _ (fun i _ => by omega)
  · rw [if_neg h3]
    obtain ⟨k, hk⟩ : ∃ k, shapeLast samples = (k + 1) + 2 := ⟨shapeLast samples - 3, by omega⟩
    show (List.range (shapeLast samples)).foldl (piquilStep P samples) (Sum.inl 0) = _
    rw [hk, List.range_add, List.foldl_append]
    rw [List.range_succ_eq_map, List.foldl_cons]
    have hstep0 : piquilStep P samples (Sum.inl 0) 0 =
        Sum.inr (samples.map (fun row => (0 : R) + colTerm P 0 row)) := by
      rw [piquilStep, if_neg (by omega), addBroadcast, List.map_map]
      rfl
    rw [hstep0,
      foldl_piquilStep_go P samples _ _ (by
        intro i hi
        simp only [List.mem_map, List.mem_range] at hi
        obtain ⟨j, hj, rfl⟩ := hi
        omega),
      foldl_piquilStep_skip P samples _ _ (by
        intro i hi
        simp only [List.mem_map, List.mem_range] at hi
        obtain ⟨j, hj, rfl⟩ := hi
        omega)]
    refine congrArg Sum.inr (congrArg (fun f => List.map f samples) (funext fun row => ?_))
    have hn2 : (k + 1) + 2 - 2 = k + 1 := by omega
    rw [hn2, List.range_succ_eq_map, List.map_cons, List.sum_cons, List.map_map,
      List.map_map, mul_add]
    rw [zero_add, colTerm]
    rw [mul_assoc]
    refine congrArg (fun t => P * (row.getD 0 0 * row.getD 2 0) + t) ?_
    rw [← List.sum_map_mul_left]
    refine congrArg List.sum (congrArg (fun f => List.map f (List.range k)) (funext fun j => ?_))
    simp [colTerm, Function.comp, mul_assoc]

/-- C6 witness: the closed form evaluated on the concrete 0/1 batch
`[[0,1,1,0],[1,1,1,1]]` with `P = 2` over ℤ: the result is the per-sample
tensor `[0, 4]`. -/
theorem piquil_apply_spec_witness :
    ((∀ row ∈ [[(0 : ℤ), 1, 1, 0], [1, 1, 1, 1]],
        row.length = shapeLast [[(0 : ℤ), 1, 1, 0], [1, 1, 1, 1]]) ∧
      (∀ row ∈ [[(0 : ℤ), 1, 1, 0], [1, 1, 1, 1]], ∀ x ∈ row, x = 0 ∨ x = 1)) ∧
      PIQuIL.apply (2 : ℤ) [[0, 1, 1, 0], [1, 1, 1, 1]] = Sum.inr [0, 4] :=
  ⟨⟨by decide, by decide⟩, by
    rw [(piquil_apply_spec (2 : ℤ) [[0, 1, 1, 0], [1, 1, 1, 1]]
      (by decide) (by decide)).1]
    decide⟩

/-! ## Documentation Makefile -/

/-- One invocation of a documentation-generator tool, as performed by a
Makefile target: the tool, the builder selected, and the source/build
directory arguments passed to it. -/
structure DocInvocation where
  tool : String
  builder : String
  sourceDir : String
  buildPath : String
deriving DecidableEq

/-- `SOURCEDIR = .` from the documentation Makefile. -/
def SOURCEDIR : String := "."

/-- `BUILDDIR = _build` from the documentation Makefile. -/
def BUILDDIR : String := "_build"

/-- The documentation Makefile's targets, embedded rule by rule: `help`
runs `sphinx-build -M help "$(SOURCEDIR)" "$(BUILDDIR)"`; `test` runs
`sphinx-build -nW -b dummy "$(SOURCEDIR)" "$(BUILDDIR)"`; `livehtml` runs
`sphinx-autobuild ... -b html $(SOURCEDIR) $(BUILDDIR)/html`; `livetest`
runs `sphinx-autobuild -nW ... -b dummy $(SOURCEDIR) $(BUILDDIR)`; every
other target `t` is caught by the pattern rule and runs
`sphinx-build -M t "$(SOURCEDIR)" "$(BUILDDIR)"`. -/
def makeTarget (t : String) : DocInvocation :=
  if t = "help" then ⟨"sphinx-build", "help", SOURCEDIR, BUILDDIR⟩
  else if t = "test" then ⟨"sphinx-build", "dummy", SOURCEDIR, BUILDDIR⟩
  else if t = "livehtml" then ⟨"sphinx-autobuild", "html", SOURCEDIR, BUILDDIR ++ "/html"⟩
  else if t = "livetest" then ⟨"sphinx-autobuild", "dummy", SOURCEDIR, BUILDDIR⟩
  else ⟨"sphinx-build", t, SOURCEDIR, BUILDDIR⟩

/-- The five documented targets. -/
def docTargets : List String := ["help", "html", "test", "livehtml", "livetest"]

/-- C10 (counterexample): the claim that every documented target invokes the
generator with the source/build pair `(".", "_build")` is false: the
`livehtml` target passes `_build/html` as the build path. -/
theorem makefile_livehtml_builddir_differs :
    "livehtml" ∈ docTargets ∧
      (makeTarget "livehtml").sourceDir = "." ∧
      (makeTarget "livehtml").buildPath = "_build/html" ∧
      ¬ (∀ t ∈ docTargets,
          (makeTarget t).sourceDir = "." ∧ (makeTarget t).buildPath = "_build") := by
  refine ⟨by decide, by decide, by decide, fun h => ?_⟩
  have h2 := (h "livehtml" (by decide)).2
  exact absurd h2 (by decide)

/-- C10 (amended): the Makefile provides the targets `help`, `html`,
`test`, `livehtml` and `livetest`; each invokes the documentation
generator with the fixed source directory `"."`, and with the build path
`"_build"` for every target except `livehtml`, which uses the subdirectory
`"_build/html"`. -/
theorem makefile_targets_fixed_dirs :
    ∀ t ∈ docTargets,
      (makeTarget t).sourceDir = "." ∧
        ((makeTarget t).buildPath = "_build" ∨
          ((makeTarget t).buildPath = "_build/html" ∧ t = "livehtml")) := by
  decide

/-- C10 witness: the amended theorem applied at the `html` target. -/
theorem makefile_targets_fixed_dirs_witness :
    ("html" ∈ docTargets) ∧
      ((makeTarget "html").sourceDir = "." ∧
        ((makeTarget "html").buildPath = "_build" ∨
          ((makeTarget "html").buildPath = "_build/html" ∧ "html" = "livehtml"))) :=
  ⟨by decide, makefile_targets_fixed_dirs "html" (by decide)⟩
